import Mathlib

/-!
# Verification of the Headlamp desktop shell (`app/electron/main.ts`, `app/electron/preload.ts`)

A shallow embedding of the process supervisor and the update-notification
state machine of the repository, with theorems settling the spec claims.

The embedding translates the TypeScript source directly:

* `fetchRelease` embeds the `fetchRelease` closure of `createWindow`
  (main.ts, the `dom-ready` handler): it compares the latest release name
  against the running app version, then branches on the truthiness of the
  persisted `app_version` key, producing the ordered list of outbound
  actions (renderer sends and store writes).
* `quitServerProcess`, `onServerError`, `onStderrData`, `onServerClose`
  embed the supervisor functions of the same file.
* `appStep` embeds the Electron lifecycle handler registrations of
  `startElecron` as a transition system over externally delivered events.
* `desktopApiSend` / `desktopApiReceive` embed `preload.ts`.

JavaScript's truthiness on the store value (`!storedAppVersion`) is
modelled by `jsFalsy`: an absent value or the empty string is falsy.
-/

namespace Headlamp

/-- JS truthiness of a possibly-absent string: `undefined` and `""` are falsy. -/
def jsFalsy : Option String → Bool
  | none => true
  | some s => s == ""

/-- Latest-release metadata returned by
`GET /repos/{owner}/{repo}/releases/latest` (fields used by main.ts). -/
structure ReleaseData where
  name : String
  html_url : String
deriving DecidableEq, Repr

/-- Tagged-release metadata returned by
`GET /repos/{owner}/{repo}/releases/tags/{tag}` (field used by main.ts). -/
structure TaggedRelease where
  body : String
deriving DecidableEq, Repr

/-- The release source consulted by `fetchRelease`: the latest release and,
for each tag string, the release published under that tag. -/
structure ReleaseSource where
  latest : ReleaseData
  byTag : String → TaggedRelease

/-- Events sent to the renderer via `mainWindow.webContents.send`. -/
inductive RendererEvent
  | update_available (downloadURL : String)
  | show_release_notes (releaseNotes : String)
deriving DecidableEq, Repr

/-- The observable actions of one `fetchRelease` pass, in program order:
renderer sends and writes to the persisted store (`store.set('app_version', …)`). -/
inductive NotifierAction
  | send (ev : RendererEvent)
  | storeSet (v : String)
deriving DecidableEq, Repr

/-- The `update_available` part of a pass (main.ts:
`if (response.data.name !== appVersion) … send('update_available', {downloadURL: response.data.html_url})`). -/
def updateActs (src : ReleaseSource) (appVersion : String) : List NotifierAction :=
  if src.latest.name ≠ appVersion then
    [NotifierAction.send (RendererEvent.update_available src.latest.html_url)]
  else []

/-- One full `fetchRelease` pass (main.ts, `dom-ready` handler), as the
ordered list of its outbound actions.  `stored` is the value the persisted
store holds under `app_version` when the pass reads it.
Branches, in source order: `if (!storedAppVersion)` store the current
version; `else if (storedAppVersion !== appVersion)` fetch the release
tagged `v<appVersion>`, send `show_release_notes` with its body, then store
the current version; else nothing. -/
def fetchRelease (src : ReleaseSource) (appVersion : String) (stored : Option String) :
    List NotifierAction :=
  updateActs src appVersion ++
    (if jsFalsy stored then
      [NotifierAction.storeSet appVersion]
    else if stored ≠ some appVersion then
      [NotifierAction.send
          (RendererEvent.show_release_notes (src.byTag ("v" ++ appVersion)).body),
        NotifierAction.storeSet appVersion]
    else [])

/-- Replay the store writes of an action list over an initial store value. -/
def applyActions (st : Option String) : List NotifierAction → Option String
  | [] => st
  | NotifierAction.storeSet v :: rest => applyActions (some v) rest
  | NotifierAction.send _ :: rest => applyActions st rest

/-- The store value after one pass. -/
def passStore (src : ReleaseSource) (appVersion : String) (stored : Option String) :
    Option String :=
  applyActions stored (fetchRelease src appVersion stored)

def isNoteSend : NotifierAction → Bool
  | NotifierAction.send (RendererEvent.show_release_notes _) => true
  | _ => false

def isUpdateSend : NotifierAction → Bool
  | NotifierAction.send (RendererEvent.update_available _) => true
  | _ => false

/-- Number of `show_release_notes` sends in an action list. -/
def notesCount (as : List NotifierAction) : Nat := (as.filter isNoteSend).length

/-- Number of `show_release_notes` sends carrying a given body. -/
def notesCountBody (as : List NotifierAction) (b : String) : Nat :=
  (as.filter
      (· == NotifierAction.send (RendererEvent.show_release_notes b))).length

/-- A sequence of update-check passes over the same persisted store, one
`runningAppVersion` per pass; returns all actions in order and the final
store value. -/
def runPasses (src : ReleaseSource) : List String → Option String →
    List NotifierAction × Option String
  | [], st => ([], st)
  | v :: vs, st =>
    let acts := fetchRelease src v st
    let rest := runPasses src vs (applyActions st acts)
    (acts ++ rest.1, rest.2)

/-- A concrete release source used for witnesses and counterexamples. -/
def cSrc : ReleaseSource :=
  { latest := { name := "1.3.0", html_url := "https://example.com/latest" }
    byTag := fun t => { body := "notes for " ++ t } }

-- Basic replay lemmas

theorem applyActions_append (st : Option String) (a b : List NotifierAction) :
    applyActions st (a ++ b) = applyActions (applyActions st a) b := by
  induction a generalizing st with
  | nil => rfl
  | cons x rest ih => cases x <;> simp [applyActions, ih]

theorem applyActions_updateActs (st : Option String) (src : ReleaseSource) (v : String) :
    applyActions st (updateActs src v) = st := by
  unfold updateActs
  split <;> simp [applyActions]

/-- After any pass the store holds exactly the pass's running version. -/
theorem passStore_eq (src : ReleaseSource) (v : String) (st : Option String) :
    passStore src v st = some v := by
  unfold passStore fetchRelease
  rw [applyActions_append, applyActions_updateActs]
  by_cases h : jsFalsy st = true
  · simp [h, applyActions]
  · by_cases h2 : st = some v
    · subst h2
      simp [h, applyActions]
    · simp [h, h2, applyActions]

def isStoreSet : NotifierAction → Bool
  | NotifierAction.storeSet _ => true
  | _ => false

/-- Number of store writes in an action list. -/
def storeSetCount (as : List NotifierAction) : Nat := (as.filter isStoreSet).length

theorem notesCount_append (a b : List NotifierAction) :
    notesCount (a ++ b) = notesCount a + notesCount b := by
  simp [notesCount, List.filter_append]

theorem notesCount_updateActs (src : ReleaseSource) (v : String) :
    notesCount (updateActs src v) = 0 := by
  unfold updateActs
  split <;> simp [notesCount, isNoteSend]

theorem notesCount_fetchRelease_le_one (src : ReleaseSource) (v : String)
    (st : Option String) : notesCount (fetchRelease src v st) ≤ 1 := by
  unfold fetchRelease
  rw [notesCount_append, notesCount_updateActs]
  by_cases h : jsFalsy st = true
  · simp [h, notesCount, isNoteSend]
  · by_cases h2 : st = some v
    · subst h2
      cases hj : jsFalsy (some v) <;> simp [hj, notesCount, isNoteSend, List.filter]
    · simp [h, h2, notesCount, isNoteSend, List.filter]

theorem notesCount_fetchRelease_self (src : ReleaseSource) (v : String) :
    notesCount (fetchRelease src v (some v)) = 0 := by
  unfold fetchRelease
  rw [notesCount_append, notesCount_updateActs]
  by_cases h : jsFalsy (some v) = true
  · simp [h, notesCount, isNoteSend]
  · simp [h, notesCount, isNoteSend, List.filter]

theorem runPasses_self (src : ReleaseSource) (v : String) (n : Nat) :
    notesCount (runPasses src (List.replicate n v) (some v)).1 = 0 ∧
      (runPasses src (List.replicate n v) (some v)).2 = some v := by
  induction n with
  | zero => simp [runPasses, notesCount, List.filter]
  | succ k ih =>
    have hst : applyActions (some v) (fetchRelease src v (some v)) = some v :=
      passStore_eq src v (some v)
    simp only [List.replicate_succ, runPasses, hst, notesCount_append]
    exact ⟨by rw [notesCount_fetchRelease_self, ih.1], ih.2⟩

/-- The literal reading of claim C1 at one pass: branching on whether the
persisted `storedVersion` is absent (the key not set), present-and-different
(must emit `show_release_notes` with the tagged release's body and write the
running version), or present-and-equal (no signal, no write). -/
def notifierClaimC1 (src : ReleaseSource) (v : String) (st : Option String) : Prop :=
  match st with
  | none =>
      passStore src v none = some v ∧ notesCount (fetchRelease src v none) = 0
  | some s =>
      (s ≠ v →
        (fetchRelease src v (some s)).filter isNoteSend =
            [NotifierAction.send
                (RendererEvent.show_release_notes (src.byTag ("v" ++ v)).body)] ∧
          passStore src v (some s) = some v) ∧
      (s = v →
        notesCount (fetchRelease src v (some s)) = 0 ∧
          storeSetCount (fetchRelease src v (some s)) = 0)

/-- C1 fails as stated: with the store holding the empty string, which is a
present value different from the running version "1.0.0", the code takes the
falsy branch — it emits no `show_release_notes` and overwrites the store —
while the claim's present-and-different branch requires the signal. -/
theorem notifierClaimC1_counterexample : ¬ notifierClaimC1 cSrc "1.0.0" (some "") := by
  unfold notifierClaimC1
  decide

/-- C1 amended: the notifier branches on the JS truthiness of the stored
value, not on its absence.  If the stored value is falsy (absent or empty)
it only writes the running version; if it is truthy and different it emits
`show_release_notes` with the `v<runningAppVersion>` release body and then
writes the running version; if it equals the (nonempty) running version it
does nothing beyond the `update_available` comparison. -/
theorem fetchRelease_branches (src : ReleaseSource) (v : String) (st : Option String) :
    (jsFalsy st = true →
      fetchRelease src v st = updateActs src v ++ [NotifierAction.storeSet v]) ∧
    (jsFalsy st = false → st ≠ some v →
      fetchRelease src v st =
        updateActs src v ++
          [NotifierAction.send
              (RendererEvent.show_release_notes (src.byTag ("v" ++ v)).body),
            NotifierAction.storeSet v]) ∧
    (st = some v → jsFalsy st = false → fetchRelease src v st = updateActs src v) := by
  refine ⟨fun h => ?_, fun h h2 => ?_, fun h h2 => ?_⟩
  · simp [fetchRelease, h]
  · simp [fetchRelease, h, h2]
  · subst h
    simp [fetchRelease, h2]

/-- Witness for `fetchRelease_branches`: the upgrade pass from stored
"0.9.0" to running "1.0.0" emits the release notes and advances the store. -/
theorem fetchRelease_branches_witness :
    fetchRelease cSrc "1.0.0" (some "0.9.0") =
      updateActs cSrc "1.0.0" ++
        [NotifierAction.send
            (RendererEvent.show_release_notes ((cSrc.byTag ("v" ++ "1.0.0")).body)),
          NotifierAction.storeSet "1.0.0"] :=
  (fetchRelease_branches cSrc "1.0.0" (some "0.9.0")).2.1 (by decide) (by decide)

/-- C2: a pass sends `update_available` (payload: the latest release's
`html_url`) exactly when the latest release's name is a different string
from the running version — plain string inequality, no version ordering —
and the right-hand side does not mention the stored version, so the signal
is independent of the persisted state. -/
theorem update_available_iff_name_differs (src : ReleaseSource) (v : String)
    (st : Option String) :
    (fetchRelease src v st).filter isUpdateSend =
      (if src.latest.name ≠ v then
        [NotifierAction.send (RendererEvent.update_available src.latest.html_url)]
      else []) := by
  unfold fetchRelease updateActs
  by_cases h : src.latest.name = v <;>
    by_cases h2 : jsFalsy st = true <;>
      by_cases h3 : st = some v <;>
        simp [h, h2, h3, isUpdateSend, List.filter_append, List.filter]

/-- C3 fails as stated: over a store initially set to "1.1.0", a pass running
"1.2.0" advances the store to "1.2.0", and a following pass running the
prior version "1.1.0" returns the store to the previously-held "1.1.0" —
`storedVersion` cycles back to an earlier value, so it cannot be strictly
advancing under any ordering — and the three-pass sequence 1.2.0, 1.1.0,
1.2.0 emits the `show_release_notes` body for v1.2.0 twice. -/
theorem storedVersion_rollback_counterexample :
    (runPasses cSrc ["1.2.0"] (some "1.1.0")).2 = some "1.2.0" ∧
      (runPasses cSrc ["1.2.0", "1.1.0"] (some "1.1.0")).2 = some "1.1.0" ∧
      notesCountBody (runPasses cSrc ["1.2.0", "1.1.0", "1.2.0"] (some "1.1.0")).1
          "notes for v1.2.0" = 2 := by
  decide

/-- C3 amended: the store is overwritten with each pass's running version
with no ordering check, so the invariant holds only while the running
version does not change (in particular across restarts of the same build):
over any sequence of passes with one fixed running version, the store ends
at that version and `show_release_notes` fires at most once. -/
theorem constant_version_passes (src : ReleaseSource) (v : String)
    (st : Option String) (n : Nat) :
    notesCount (runPasses src (List.replicate (n + 1) v) st).1 ≤ 1 ∧
      (runPasses src (List.replicate (n + 1) v) st).2 = some v := by
  have hst : applyActions st (fetchRelease src v st) = some v := passStore_eq src v st
  have h := runPasses_self src v n
  constructor
  · simp only [List.replicate_succ, runPasses, hst, notesCount_append, h.1]
    simpa using notesCount_fetchRelease_le_one src v st
  · simp [List.replicate_succ, runPasses, hst, h.2]

/-- C9: a falsy stored value (absent key or empty string) is treated exactly
like an absent one: the pass performs the same actions as from an empty
store, emits no `show_release_notes`, and overwrites the key with the
running version. -/
theorem falsy_stored_treated_as_absent (src : ReleaseSource) (v : String)
    (st : Option String) (h : jsFalsy st = true) :
    fetchRelease src v st = fetchRelease src v none ∧
      notesCount (fetchRelease src v st) = 0 ∧
      passStore src v st = some v := by
  refine ⟨?_, ?_, passStore_eq src v st⟩
  · unfold fetchRelease
    rw [if_pos h, if_pos (show jsFalsy none = true from rfl)]
  · unfold fetchRelease
    rw [notesCount_append, notesCount_updateActs, if_pos h]
    simp [notesCount, isNoteSend, List.filter]

/-- Witness for `falsy_stored_treated_as_absent` at the stored empty string. -/
theorem falsy_stored_treated_as_absent_witness :
    fetchRelease cSrc "1.0.0" (some "") = fetchRelease cSrc "1.0.0" none ∧
      notesCount (fetchRelease cSrc "1.0.0" (some "")) = 0 ∧
      passStore cSrc "1.0.0" (some "") = some "1.0.0" :=
  falsy_stored_treated_as_absent cSrc "1.0.0" (some "") (by decide)

/-! ## Server process supervisor (main.ts: `startServer`, `quitServerProcess`,
`attachServerEventHandlers`) -/

/-- Log lines and OS-level actions performed by the supervisor. -/
inductive SupAction
  | logError (msg : String)
  | logInfo (msg : String)
  | killGroup (pid : Nat)
  | destroyStdin (pid : Nat)
  | killProcess (pid : Nat)
deriving DecidableEq, Repr

/-- The module-level supervisor state of main.ts: the `serverProcess`
variable (the live child's pid, or null), `intentionalQuit`, and
`serverProcessQuit` (set by the `close` handler once the child exits). -/
structure ServerState where
  serverProcess : Option Nat
  intentionalQuit : Bool
  serverProcessQuit : Bool
deriving DecidableEq, Repr

/-- `quitServerProcess` (main.ts): no-op with an "already not running" error
log when no process is held or the process already exited; otherwise set
`intentionalQuit`, log, signal the negated group id on non-Windows
(`process.kill(-pid)`), destroy stdin, signal the process
(`serverProcess.kill()`), and clear the `serverProcess` variable. -/
def quitServerProcess (isWin32 : Bool) (st : ServerState) :
    ServerState × List SupAction :=
  match st.serverProcess with
  | none => (st, [SupAction.logError "server process already not running"])
  | some pid =>
    if st.serverProcessQuit then
      (st, [SupAction.logError "server process already not running"])
    else
      ({ st with intentionalQuit := true, serverProcess := none },
        [SupAction.logInfo "stopping server process..."] ++
          (if isWin32 then [] else [SupAction.killGroup pid]) ++
          [SupAction.destroyStdin pid, SupAction.killProcess pid])

/-- Termination signals sent to the OS (group or direct). -/
def isSignal : SupAction → Bool
  | SupAction.killGroup _ => true
  | SupAction.killProcess _ => true
  | _ => false

def signalCount (as : List SupAction) : Nat := (as.filter isSignal).length

/-- Direct `serverProcess.kill()` signals. -/
def directKillCount (as : List SupAction) : Nat :=
  (as.filter fun a =>
      match a with
      | SupAction.killProcess _ => true
      | _ => false).length

/-- C4: `stop()` is idempotent per session.  When no process is held or it
already exited, `quitServerProcess` only logs "already not running" and
changes nothing.  On a live session, the first call sets `intentionalQuit`,
signals the negated group id on group-capable (non-Windows) platforms,
destroys stdin and signals the process directly; the second call is the
logging no-op, sends zero signals, and the direct `kill()` is sent exactly
once across both calls (the group signal likewise exactly once on
group-capable platforms, so two calls send one signal on Windows and the
two signals the claim itself enumerates elsewhere). -/
theorem quitServerProcess_idempotent (w : Bool) :
    (∀ st : ServerState, st.serverProcess = none ∨ st.serverProcessQuit = true →
      quitServerProcess w st =
        (st, [SupAction.logError "server process already not running"])) ∧
    (∀ (st : ServerState) (pid : Nat),
      st.serverProcess = some pid → st.serverProcessQuit = false →
      (quitServerProcess w st).1.intentionalQuit = true ∧
      (w = false → SupAction.killGroup pid ∈ (quitServerProcess w st).2) ∧
      SupAction.destroyStdin pid ∈ (quitServerProcess w st).2 ∧
      (quitServerProcess w (quitServerProcess w st).1).2 =
        [SupAction.logError "server process already not running"] ∧
      (quitServerProcess w (quitServerProcess w st).1).1 = (quitServerProcess w st).1 ∧
      signalCount (quitServerProcess w (quitServerProcess w st).1).2 = 0 ∧
      directKillCount
          ((quitServerProcess w st).2 ++
            (quitServerProcess w (quitServerProcess w st).1).2) = 1 ∧
      signalCount
          ((quitServerProcess w st).2 ++
            (quitServerProcess w (quitServerProcess w st).1).2) =
        (if w then 1 else 2)) := by
  constructor
  · rintro ⟨sp, iq, q⟩ (h | h) <;> simp only at h <;> subst h
    · rfl
    · cases sp <;> rfl
  · rintro ⟨sp, iq, q⟩ pid h hq
    simp only at h hq
    subst h
    subst hq
    cases w <;>
      simp [quitServerProcess, signalCount, directKillCount, isSignal, List.filter]

/-- Witness for `quitServerProcess_idempotent` on a live session with pid 5
on a group-capable platform. -/
theorem quitServerProcess_idempotent_witness :
    (quitServerProcess false ⟨some 5, false, false⟩).1.intentionalQuit = true ∧
    (false = false →
      SupAction.killGroup 5 ∈ (quitServerProcess false ⟨some 5, false, false⟩).2) ∧
    SupAction.destroyStdin 5 ∈ (quitServerProcess false ⟨some 5, false, false⟩).2 ∧
    (quitServerProcess false (quitServerProcess false ⟨some 5, false, false⟩).1).2 =
      [SupAction.logError "server process already not running"] ∧
    (quitServerProcess false (quitServerProcess false ⟨some 5, false, false⟩).1).1 =
      (quitServerProcess false ⟨some 5, false, false⟩).1 ∧
    signalCount
        (quitServerProcess false (quitServerProcess false ⟨some 5, false, false⟩).1).2 = 0 ∧
    directKillCount
        ((quitServerProcess false ⟨some 5, false, false⟩).2 ++
          (quitServerProcess false (quitServerProcess false ⟨some 5, false, false⟩).1).2) = 1 ∧
    signalCount
        ((quitServerProcess false ⟨some 5, false, false⟩).2 ++
          (quitServerProcess false (quitServerProcess false ⟨some 5, false, false⟩).1).2) =
      (if false then 1 else 2) :=
  (quitServerProcess_idempotent false).2 ⟨some 5, false, false⟩ 5 rfl rfl

/-- The log message of the `close` handler. -/
def closeMessage (code signal : String) : String :=
  "server process process exited with code:" ++ code ++ " signal:" ++ signal

/-- Result of the `close` handler: its log actions and the new value of the
`serverProcessQuit` flag. -/
structure CloseEffect where
  actions : List SupAction
  serverProcessQuit : Bool
deriving DecidableEq, Repr

/-- The `close` handler of `attachServerEventHandlers` (main.ts): log the
exit message as error when the quit was not intentional, as info otherwise,
and set `serverProcessQuit`. `code` and `signal` are the string renderings
interpolated into the message. -/
def onServerClose (intentionalQuit : Bool) (code signal : String) : CloseEffect :=
  { actions :=
      if !intentionalQuit then [SupAction.logError (closeMessage code signal)]
      else [SupAction.logInfo (closeMessage code signal)]
    serverProcessQuit := true }

/-- C5: every observed child exit sets the exited flag, and is logged — with
its code and signal in the message — as informational exactly when
`intentionalQuit` is true and as an error otherwise. -/
theorem onServerClose_spec (iq : Bool) (code signal : String) :
    (onServerClose iq code signal).serverProcessQuit = true ∧
      (onServerClose iq code signal).actions =
        [if iq then SupAction.logInfo (closeMessage code signal)
          else SupAction.logError (closeMessage code signal)] := by
  cases iq <;> exact ⟨rfl, rfl⟩

/-- Whether `pat` occurs as a contiguous subsequence of a character list. -/
def listIncludes (pat : List Char) : List Char → Bool
  | [] => pat.isPrefixOf []
  | c :: rest => pat.isPrefixOf (c :: rest) || listIncludes pat rest

/-- `data.indexOf(pat) !== -1` for strings: `pat` occurs as a substring. -/
def jsIncludes (data pat : String) : Bool := listIncludes pat.toList data.toList

/-- The stderr `data` handler of `attachServerEventHandlers` (main.ts):
`if (data && data.indexOf && data.indexOf('Requesting') !== -1)` log info,
else log error.  For a string chunk, `data` is truthy iff nonempty and
`data.indexOf` always exists. -/
def onStderrData (data : String) : SupAction :=
  let sterrMessage := "server process stderr: " ++ data
  if (data != "") && jsIncludes data "Requesting" then SupAction.logInfo sterrMessage
  else SupAction.logError sterrMessage

/-- C7: a stderr chunk is logged as informational exactly when it contains
the substring "Requesting", and as an error otherwise (an empty chunk,
falsy in JS, contains no substring and is logged as an error either way). -/
theorem stderr_classified_by_Requesting (data : String) :
    onStderrData data =
      (if jsIncludes data "Requesting" then
        SupAction.logInfo ("server process stderr: " ++ data)
      else SupAction.logError ("server process stderr: " ++ data)) := by
  by_cases h : data = ""
  · subst h
    decide
  · simp [onStderrData, bne, h]

/-- `startServer` (main.ts): builds the spawn request for the backend
executable relative to the resources path (`path.join(resourcesPath,
'./server')`), `shell: true`, and `detached` on every platform but
Windows.  The returned value is the process handle — the result type has no
error component; a spawn failure arrives only later via the `error` event. -/
structure SpawnRequest where
  command : String
  args : List String
  shell : Bool
  detached : Bool
deriving DecidableEq, Repr

def startServer (resourcesPath : String) (isWin32 : Bool)
    (flags : List String) : SpawnRequest :=
  { command := resourcesPath ++ "/server"
    args := flags
    shell := true
    detached := !isWin32 }

/-- The `error` handler of `attachServerEventHandlers` (main.ts): the entire
handling of a spawn failure. -/
def onServerError (err : String) : List SupAction :=
  [SupAction.logError ("server process failed to start: " ++ err)]

def isLogAction : SupAction → Bool
  | SupAction.logError _ => true
  | SupAction.logInfo _ => true
  | _ => false

/-- The literal reading of claim C8: handling a spawn failure produces some
caller-visible effect beyond a log line. -/
def spawnErrorSurfaced (err : String) : Prop :=
  ∃ a ∈ onServerError err, isLogAction a = false

/-- C8 fails as stated: at the concrete failure "spawn ENOENT" the whole
handling is one error log; nothing beyond logging reaches the caller. -/
theorem spawnErrorSurfaced_counterexample : ¬ spawnErrorSurfaced "spawn ENOENT" := by
  unfold spawnErrorSurfaced onServerError
  decide

/-- C8 amended: `startServer` unconditionally returns the plain spawn
request (its type carries no error alternative), and a later spawn failure
is handled by the `error`-event handler, whose entire output is the single
"server process failed to start" error log — the failure is logged, not
surfaced to the caller as a result. -/
theorem spawn_error_only_logged (rp : String) (w : Bool) (flags : List String)
    (err : String) :
    startServer rp w flags =
      { command := rp ++ "/server", args := flags, shell := true, detached := !w } ∧
      onServerError err =
        [SupAction.logError ("server process failed to start: " ++ err)] ∧
      (onServerError err).all isLogAction = true :=
  ⟨rfl, rfl, rfl⟩

/-! ## Electron lifecycle (main.ts: `startElecron`, `createWindow` and the
handler registrations), windowed non-dev mode. -/

/-- The `mainWindow` variable: `let mainWindow: BrowserWindow | null;`
starts undefined (not null), becomes a window in `createWindow`, becomes
null in the window's `closed` handler.  The distinction matters: the
`activate` handler tests `mainWindow === null`, which is false while the
variable is still undefined. -/
inductive MWState
  | undef
  | isNull
  | window
deriving DecidableEq, Repr

/-- Externally delivered lifecycle events: `ready` and `activate` on the
app, `closed` on the window, and `quit` (whose handler is
`quitServerProcess`). -/
inductive AppEvent
  | ready
  | activate
  | closed
  | quit
deriving DecidableEq, Repr

/-- Lifecycle state: the `mainWindow` variable, whether `ready` already
fired, whether a `closed` was observed, how many server sessions were ever
spawned, how many of them are live (spawned and neither exited nor
signalled), and whether the currently referenced one is live. -/
structure AppState where
  mainWindow : MWState
  readyFired : Bool
  closedSeen : Bool
  totalSessions : Nat
  liveSessions : Nat
  currentLive : Bool
deriving DecidableEq, Repr

def initialAppState : AppState :=
  { mainWindow := MWState.undef, readyFired := false, closedSeen := false,
    totalSessions := 0, liveSessions := 0, currentLive := false }

/-- `createWindow` (main.ts) in non-dev windowed mode: create the window and
unconditionally spawn a fresh server session
(`serverProcess = startServer()`), overwriting the reference to any prior
session without stopping it. -/
def createWindowStep (s : AppState) : AppState :=
  { s with mainWindow := MWState.window,
           totalSessions := s.totalSessions + 1,
           liveSessions := s.liveSessions + 1,
           currentLive := true }

/-- One lifecycle event, as wired in `startElecron`:
`app.on('ready', createWindow)`; `app.on('activate', …)` re-runs
`createWindow` exactly when `mainWindow === null`; the window's `closed`
handler sets `mainWindow = null`; `app.on('quit', quitServerProcess)`
signals the currently referenced session when it is live. -/
def appStep (s : AppState) : AppEvent → AppState
  | AppEvent.ready => createWindowStep { s with readyFired := true }
  | AppEvent.activate =>
      if s.mainWindow = MWState.isNull then createWindowStep s else s
  | AppEvent.closed =>
      { s with mainWindow := MWState.isNull, closedSeen := true }
  | AppEvent.quit =>
      if s.currentLive then
        { s with currentLive := false, liveSessions := s.liveSessions - 1 }
      else s

/-- Events Electron can deliver in a given state: `ready` fires at most
once, a window can only report `closed` while it exists; `activate` and
`quit` arrive externally at any time. -/
def validEvent (s : AppState) : AppEvent → Bool
  | AppEvent.ready => !s.readyFired
  | AppEvent.closed => s.mainWindow == MWState.window
  | _ => true

def validSeq : AppState → List AppEvent → Bool
  | _, [] => true
  | s, e :: rest => validEvent s e && validSeq (appStep s e) rest

def appRun (evs : List AppEvent) : AppState := evs.foldl appStep initialAppState

/-- C6 fails as stated: after the deliverable sequence ready, closed,
activate — the dock re-activation arriving after the window closed but
before the pending quit — `createWindow` runs a second time and spawns a
second session while the first one is still live. -/
theorem single_session_counterexample :
    validSeq initialAppState [AppEvent.ready, AppEvent.closed, AppEvent.activate] = true ∧
      (appRun [AppEvent.ready, AppEvent.closed, AppEvent.activate]).liveSessions = 2 := by
  decide

/-- Whether the remaining events deliver no `activate` once a `closed` has
been observed (`seen` carries whether one already was). -/
def noActivateAfterClosed (seen : Bool) : List AppEvent → Bool
  | [] => true
  | AppEvent.activate :: rest => !seen && noActivateAfterClosed seen rest
  | AppEvent.closed :: rest => noActivateAfterClosed true rest
  | AppEvent.ready :: rest => noActivateAfterClosed seen rest
  | AppEvent.quit :: rest => noActivateAfterClosed seen rest

/-- Inductive invariant for the single-session property. -/
def appInv (s : AppState) : Prop :=
  s.liveSessions ≤ s.totalSessions ∧
  s.totalSessions ≤ 1 ∧
  (s.readyFired = false → s.totalSessions = 0) ∧
  (s.mainWindow = MWState.isNull → s.closedSeen = true)

theorem appInv_foldl (evs : List AppEvent) : ∀ s : AppState,
    validSeq s evs = true → noActivateAfterClosed s.closedSeen evs = true →
    appInv s → appInv (evs.foldl appStep s) := by
  induction evs with
  | nil => exact fun s _ _ h => h
  | cons e rest ih =>
    intro s hv hn hinv
    rw [validSeq, Bool.and_eq_true] at hv
    obtain ⟨hinv1, hinv2, hinv3, hinv4⟩ := hinv
    cases e with
    | ready =>
      rw [List.foldl_cons]
      refine ih _ hv.2 hn ?_
      have htot : s.totalSessions = 0 := by
        apply hinv3
        simpa [validEvent] using hv.1
      have hlive : s.liveSessions = 0 := Nat.le_antisymm (htot ▸ hinv1) (Nat.zero_le _)
      exact ⟨by simp [appStep, createWindowStep, hlive, htot],
        by simp [appStep, createWindowStep, htot],
        by simp [appStep, createWindowStep],
        by simp [appStep, createWindowStep]⟩
    | activate =>
      rw [noActivateAfterClosed, Bool.and_eq_true] at hn
      have hcl : s.closedSeen = false := by
        simpa using hn.1
      have hmw : s.mainWindow ≠ MWState.isNull := fun h => by
        rw [hinv4 h] at hcl
        exact Bool.noConfusion hcl
      rw [List.foldl_cons]
      have hstep : appStep s AppEvent.activate = s := by
        simp [appStep, hmw]
      rw [hstep] at hv ⊢
      exact ih _ hv.2 (hstep ▸ hn.2) ⟨hinv1, hinv2, hinv3, hinv4⟩
    | closed =>
      rw [noActivateAfterClosed] at hn
      rw [List.foldl_cons]
      exact ih _ hv.2 (by simpa [appStep] using hn)
        ⟨hinv1, hinv2, hinv3, by simp [appStep]⟩
    | quit =>
      rw [List.foldl_cons]
      have hn' : noActivateAfterClosed s.closedSeen rest = true := hn
      cases hc : s.currentLive
      · have hstep : appStep s AppEvent.quit = s := by
          simp [appStep, hc]
        rw [hstep]
        exact ih _ (hstep ▸ hv.2) hn' ⟨hinv1, hinv2, hinv3, hinv4⟩
      · have hstep : appStep s AppEvent.quit =
            { s with currentLive := false, liveSessions := s.liveSessions - 1 } := by
          simp [appStep, hc]
        rw [hstep]
        exact ih _ (hstep ▸ hv.2) hn'
          ⟨Nat.le_trans (Nat.sub_le _ _) hinv1, hinv2, hinv3, hinv4⟩

/-- C6 amended: the code never checks the prior session before spawning, so
the invariant holds only for lifecycles in which no `activate` is delivered
after the window has closed (the normal flow, since window-all-closed
triggers `app.quit`): over every such valid event sequence at most one
session exists — in particular at most one is ever spawned. -/
theorem at_most_one_session (evs : List AppEvent)
    (hv : validSeq initialAppState evs = true)
    (hn : noActivateAfterClosed false evs = true) :
    (appRun evs).liveSessions ≤ 1 ∧ (appRun evs).totalSessions ≤ 1 := by
  have h := appInv_foldl evs initialAppState hv hn
    (by simp [appInv, initialAppState])
  exact ⟨Nat.le_trans h.1 h.2.1, h.2.1⟩

/-- Witness for `at_most_one_session` on the normal lifecycle
ready, closed, quit. -/
theorem at_most_one_session_witness :
    (appRun [AppEvent.ready, AppEvent.closed, AppEvent.quit]).liveSessions ≤ 1 ∧
      (appRun [AppEvent.ready, AppEvent.closed, AppEvent.quit]).totalSessions ≤ 1 :=
  at_most_one_session [AppEvent.ready, AppEvent.closed, AppEvent.quit]
    (by decide) (by decide)

/-! ## Renderer bridge (preload.ts: `desktopApi`) -/

/-- The channel whitelist of preload.ts. -/
def validChannels : List String := ["update_available", "locale", "show_release_notes"]

/-- IPC effects of the context-bridge methods. -/
inductive BridgeEffect
  | ipcSend (channel : String) (data : String)
  | ipcSubscribe (channel : String)
deriving DecidableEq, Repr

/-- `desktopApi.send` (preload.ts): forward to `ipcRenderer.send` only for
whitelisted channels, silently dropping everything else. -/
def desktopApiSend (channel data : String) : List BridgeEffect :=
  if validChannels.contains channel then [BridgeEffect.ipcSend channel data]
  else []

/-- `desktopApi.receive` (preload.ts): subscribe via `ipcRenderer.on` only
for whitelisted channels, silently dropping everything else. -/
def desktopApiReceive (channel : String) : List BridgeEffect :=
  if validChannels.contains channel then [BridgeEffect.ipcSubscribe channel]
  else []

/-- C10: the bridge forwards a send and registers a subscription exactly for
the channels update_available, locale and show_release_notes; for any other
channel name both methods perform nothing. -/
theorem bridge_whitelist (channel data : String) :
    desktopApiSend channel data =
      (if channel = "update_available" ∨ channel = "locale" ∨
          channel = "show_release_notes"
        then [BridgeEffect.ipcSend channel data] else []) ∧
    desktopApiReceive channel =
      (if channel = "update_available" ∨ channel = "locale" ∨
          channel = "show_release_notes"
        then [BridgeEffect.ipcSubscribe channel] else []) := by
  have hc : validChannels.contains channel = true ↔
      (channel = "update_available" ∨ channel = "locale" ∨
        channel = "show_release_notes") := by
    simp [validChannels, List.contains, List.elem_iff]
  by_cases h : channel = "update_available" ∨ channel = "locale" ∨
      channel = "show_release_notes"
  · rcases h with h | h | h <;> subst h <;>
      simp [desktopApiSend, desktopApiReceive, validChannels]
  · have hfalse : validChannels.contains channel = false := by
      cases hx : validChannels.contains channel
      · rfl
      · exact absurd (hc.mp hx) h
    constructor
    · unfold desktopApiSend
      rw [hfalse]
      simp [h]
    · unfold desktopApiReceive
      rw [hfalse]
      simp [h]

end Headlamp
